import Mathlib

/-!
Verification of the content-recommender backend (`src/backend/app.py`).

The backend holds two static fixture datasets (`users`, `contents`) and one
route, `recommend`, which

  * extracts `user_id` from the JSON body (`data.get('user_id')`, the absent
    field giving the `None` sentinel),
  * answers 404 `{'error': 'User not found'}` when the identifier is not a
    key of `users`,
  * otherwise computes, for every catalog item in order, the cosine
    similarity (`sklearn.metrics.pairwise.cosine_similarity`) between the
    user's preference vector and the item's feature vector,
  * sorts the `(id, similarity)` pairs descending by similarity with
    Python's stable `sorted(..., reverse=True)`, takes the first three and
    maps the ids back to titles.

Embedding choices, each justified from the source:

  * Vector components are integers, as in the fixture data; similarity
    values live in `ℝ`.
    `sklearn`'s `cosine_similarity` normalizes each row, replacing a zero
    norm by 1, so a zero vector gets similarity 0; `Score.val` mirrors this
    with an explicit guard.
  * A similarity is represented by the computable triple
    `⟨u·f, ‖u‖², ‖f‖²⟩ : Score`; its real value is `Score.val`.  The
    comparison `Score.le` is a computable Boolean decision procedure on
    these triples, proved below (`Score.le_iff_val`) to agree with `≤` on
    the real values, so the executable sort coincides with the float sort
    of the source on the modelled real semantics.
  * Python's `sorted` is a stable sort; any stable sort is extensionally
    the stable insertion sort `sortDesc`.
  * `cosine_similarity` raises `ValueError` when the two row vectors have
    different lengths; the embedding returns `Except.error .dimMismatch`
    there, and the loop, like the Python loop, stops at the first failing
    pair (`mapExcept` short-circuits).
  * The title lookup `next(c['title'] for c in contents if c['id'] == rec[0])`
    would raise `StopIteration` on a miss; this is `.error .titleLookupFailed`.
-/

namespace App

/-- A catalog entry: `{'id': ..., 'title': ..., 'features': [...]}`. -/
structure Content where
  id : Int
  title : String
  features : List Int
deriving DecidableEq

/-- The static user dataset of `app.py` (`user_id ↦ preferences`). -/
def users : List (Int × List Int) :=
  [(1, [5, 4, 0, 0, 5]), (2, [0, 0, 5, 4, 3])]

/-- The static content catalog of `app.py`, in source order. -/
def contents : List Content :=
  [⟨1, "Action Adventure", [1, 0, 0, 0, 1]⟩,
   ⟨2, "Sci-Fi Epic",      [0, 1, 0, 0, 1]⟩,
   ⟨3, "Comedy Special",   [0, 0, 1, 1, 0]⟩,
   ⟨4, "Drama Series",     [0, 0, 1, 0, 0]⟩,
   ⟨5, "Fantasy Tale",     [1, 0, 0, 0, 1]⟩]

/-- Dot product of two numeric vectors (entries beyond the shorter are
ignored; the route only applies it to equal-length vectors). -/
def dot : List Int → List Int → Int
  | a :: u, b :: v => a * b + dot u v
  | _, _ => 0

/-- Sum of squares, i.e. the squared Euclidean norm. -/
def sumSq : List Int → Int
  | [] => 0
  | a :: u => a * a + sumSq u

/-- The data from which one cosine-similarity score is computed: the dot
product and the two squared norms. -/
structure Score where
  d : Int
  u2 : Int
  f2 : Int
deriving DecidableEq

/-- The score of the pair of a preference vector and a feature vector. -/
def mkScore (u f : List Int) : Score := ⟨dot u f, sumSq u, sumSq f⟩

/-- The real value of a score: `sklearn` cosine similarity, which treats a
zero-norm vector as yielding similarity 0 (its `normalize` maps a zero norm
to 1). -/
noncomputable def Score.val (s : Score) : ℝ :=
  if s.u2 = 0 ∨ s.f2 = 0 then 0
  else (s.d : ℝ) / (Real.sqrt (s.u2 : ℝ) * Real.sqrt (s.f2 : ℝ))

/-- Normal form of a score for comparison purposes: a pair `(a, p)` whose
real meaning is `a / √p`, with `p` positive whenever the score is
well-formed.  A zero-norm score becomes `(0, 1)`. -/
def Score.nval (s : Score) : Int × Int :=
  if s.u2 = 0 ∨ s.f2 = 0 then (0, 1) else (s.d, s.u2 * s.f2)

/-- Decide `x.1 / √x.2 ≤ y.1 / √y.2` (for positive radicands) using only
rational arithmetic, by sign analysis and cross-multiplied squares. -/
def radLe (x y : Int × Int) : Bool :=
  if x.1 ≤ 0 then
    if 0 ≤ y.1 then true
    else decide (y.1 * y.1 * x.2 ≤ x.1 * x.1 * y.2)
  else
    if y.1 ≤ 0 then false
    else decide (x.1 * x.1 * y.2 ≤ y.1 * y.1 * x.2)

/-- Computable comparison of two scores, agreeing with `≤` on their real
values (proved in `Score.le_iff_val`). -/
def Score.le (s t : Score) : Bool := radLe s.nval t.nval

/-- Computable strict comparison, the sort's test. -/
def Score.lt (s t : Score) : Bool := !(Score.le t s)

/-- Well-formedness: the two stored squared norms are nonnegative.  Holds
for every score built by `mkScore`. -/
def Score.WF (s : Score) : Prop := 0 ≤ s.u2 ∧ 0 ≤ s.f2

instance (s : Score) : Decidable s.WF :=
  inferInstanceAs (Decidable (0 ≤ s.u2 ∧ 0 ≤ s.f2))

/-- Errors the route body can raise (modelling uncaught Python exceptions):
`dimMismatch` is `sklearn`'s `ValueError` on incompatible vector lengths,
`titleLookupFailed` the `StopIteration` of an empty title generator. -/
inductive RecError where
  | dimMismatch
  | titleLookupFailed
deriving DecidableEq

/-- The JSON response of the route: HTTP status plus the optional `error`
and `recommendations` fields. -/
structure Response where
  status : Nat
  error : Option String
  recommendations : Option (List String)
deriving DecidableEq

/-- Stable insertion of one scored item into a descending-sorted list: the
item moves past strictly greater scores and lands before the first score
not greater than its own, hence after nothing equal that was earlier. -/
def insertDesc (x : Int × Score) : List (Int × Score) → List (Int × Score)
  | [] => [x]
  | y :: l => if Score.lt x.2 y.2 then y :: insertDesc x l else x :: y :: l

/-- Stable descending sort by score, the extensional behavior of Python's
stable `sorted(similarities, key=lambda x: x[1], reverse=True)`. -/
def sortDesc : List (Int × Score) → List (Int × Score)
  | [] => []
  | x :: l => insertDesc x (sortDesc l)

/-- Sequential effectful map over a list, stopping at the first error —
the behavior of the Python `for` loop around a raising call. -/
def mapExcept {α β : Type} (f : α → Except RecError β) :
    List α → Except RecError (List β)
  | [] => .ok []
  | x :: l =>
    match f x with
    | .error e => .error e
    | .ok b =>
      match mapExcept f l with
      | .error e => .error e
      | .ok bs => .ok (b :: bs)

/-- One iteration of the similarity loop: `cosine_similarity` first checks
that the two rows have the same length, raising `ValueError` otherwise. -/
def scoreOf (prefs : List Int) (c : Content) : Except RecError (Int × Score) :=
  if c.features.length = prefs.length then .ok (c.id, mkScore prefs c.features)
  else .error .dimMismatch

/-- The title lookup `next(c['title'] for c in contents if c['id'] == rec[0])`. -/
def titleOf (cs : List Content) (r : Int × Score) : Except RecError String :=
  match cs.find? (fun c => c.id == r.1) with
  | some c => .ok c.title
  | none => .error .titleLookupFailed

/-- The similarity list the loop builds when no length mismatch occurs. -/
def simsOf (prefs : List Int) (cs : List Content) : List (Int × Score) :=
  cs.map (fun c => (c.id, mkScore prefs c.features))

/-- The route body of `app.py`, parameterized by the datasets.  `uid` is
the result of `data.get('user_id')` (`none` = the `None` sentinel); the
membership test and the indexing `users[user_id]['preferences']` together
are one association lookup. -/
def recommend (us : List (Int × List Int)) (cs : List Content)
    (uid : Option Int) : Except RecError Response :=
  match uid.bind (fun k => us.lookup k) with
  | none => .ok ⟨404, some "User not found", none⟩
  | some prefs =>
    match mapExcept (scoreOf prefs) cs with
    | .error e => .error e
    | .ok sims =>
      match mapExcept (titleOf cs) ((sortDesc sims).take 3) with
      | .error e => .error e
      | .ok ts => .ok ⟨200, none, some ts⟩

/-- The route applied to a parsed JSON object body: the `user_id` field is
extracted with `data.get('user_id')`, absent giving the sentinel. -/
def handleRequest (body : List (String × Int)) : Except RecError Response :=
  recommend users contents (body.lookup "user_id")

/-- The process state the route can read: the two module-level datasets. -/
def AppState : Type := (List (Int × List Int)) × (List Content)

/-- The route as a state transformer on the process state: the Python
function reads the module-level `users` and `contents` and writes nothing,
so the state passes through unchanged. -/
def recommendStep (st : AppState) (uid : Option Int) :
    Except RecError Response × AppState :=
  (recommend st.1 st.2 uid, st)

/-- Position of a content id in the catalog, for stating stability. -/
def catIdx (cs : List Content) (i : Int) : Nat :=
  (cs.map (·.id)).indexOf i

end App

instance {e a : Type} [DecidableEq e] [DecidableEq a] : DecidableEq (Except e a)
  | .error x, .error y =>
    if h : x = y then .isTrue (by rw [h]) else .isFalse (by intro q; cases q; exact h rfl)
  | .error _, .ok _ => .isFalse (by intro q; cases q)
  | .ok _, .error _ => .isFalse (by intro q; cases q)
  | .ok x, .ok y =>
    if h : x = y then .isTrue (by rw [h]) else .isFalse (by intro q; cases q; exact h rfl)

namespace App

theorem sumSq_nonneg (u : List Int) : 0 ≤ sumSq u := by
  induction u with
  | nil => simp [sumSq]
  | cons a u ih => have := mul_self_nonneg a; simp only [sumSq]; omega

theorem mkScore_WF (u f : List Int) : (mkScore u f).WF :=
  ⟨sumSq_nonneg u, sumSq_nonneg f⟩

theorem nval_spec (s : Score) (hs : s.WF) :
    0 < s.nval.2 ∧ s.val = (s.nval.1 : ℝ) / Real.sqrt (s.nval.2 : ℝ) := by
  by_cases h : s.u2 = 0 ∨ s.f2 = 0
  · refine ⟨by simp [Score.nval, h], ?_⟩
    simp [Score.nval, Score.val, h, Real.sqrt_one]
  · have hne : ¬(s.u2 = 0 ∨ s.f2 = 0) := h
    push_neg at h
    have hu : 0 < s.u2 := lt_of_le_of_ne hs.1 (Ne.symm h.1)
    have hf : 0 < s.f2 := lt_of_le_of_ne hs.2 (Ne.symm h.2)
    refine ⟨?_, ?_⟩
    · simp only [Score.nval]
      rw [if_neg hne]
      exact mul_pos hu hf
    · simp only [Score.nval, Score.val]
      rw [if_neg hne, if_neg hne]
      rw [Int.cast_mul, Real.sqrt_mul (by exact_mod_cast hu.le)]

theorem mul_sqrt_mul_self (x : ℝ) {p : ℝ} (hp : 0 ≤ p) :
    x * Real.sqrt p * (x * Real.sqrt p) = x * x * p := by
  rw [mul_mul_mul_comm, Real.mul_self_sqrt hp]

theorem radLe_iff (x y : Int × Int) (hp : 0 < x.2) (hq : 0 < y.2) :
    radLe x y = true ↔
      (x.1 : ℝ) / Real.sqrt (x.2 : ℝ) ≤ (y.1 : ℝ) / Real.sqrt (y.2 : ℝ) := by
  have hpR : (0 : ℝ) < (x.2 : ℝ) := by exact_mod_cast hp
  have hqR : (0 : ℝ) < (y.2 : ℝ) := by exact_mod_cast hq
  have hsp : (0 : ℝ) < Real.sqrt (x.2 : ℝ) := Real.sqrt_pos.mpr hpR
  have hsq : (0 : ℝ) < Real.sqrt (y.2 : ℝ) := Real.sqrt_pos.mpr hqR
  rw [div_le_div_iff₀ hsp hsq]
  by_cases ha : x.1 ≤ 0
  · by_cases hb : (0 : Int) ≤ y.1
    · simp only [radLe, if_pos ha, if_pos hb, true_iff]
      have h1 : (x.1 : ℝ) * Real.sqrt (y.2 : ℝ) ≤ 0 :=
        mul_nonpos_iff.mpr (Or.inr ⟨by exact_mod_cast ha, hsq.le⟩)
      have h2 : (0 : ℝ) ≤ (y.1 : ℝ) * Real.sqrt (x.2 : ℝ) :=
        mul_nonneg (by exact_mod_cast hb) hsp.le
      linarith
    · simp only [radLe, if_pos ha, if_neg hb, decide_eq_true_eq]
      push_neg at hb
      have haR : (x.1 : ℝ) ≤ 0 := by exact_mod_cast ha
      have hbR : (y.1 : ℝ) < 0 := by exact_mod_cast hb
      have h1 : (0:ℝ) ≤ -((y.1 : ℝ) * Real.sqrt (x.2 : ℝ)) := by nlinarith
      have h2 : (0:ℝ) ≤ -((x.1 : ℝ) * Real.sqrt (y.2 : ℝ)) := by nlinarith
      have key : (x.1 : ℝ) * Real.sqrt (y.2 : ℝ) ≤ (y.1 : ℝ) * Real.sqrt (x.2 : ℝ) ↔
          -((y.1 : ℝ) * Real.sqrt (x.2 : ℝ)) ≤ -((x.1 : ℝ) * Real.sqrt (y.2 : ℝ)) := by
        constructor <;> intro <;> linarith
      rw [key, mul_self_le_mul_self_iff h1 h2, neg_mul_neg, neg_mul_neg,
        mul_sqrt_mul_self _ hpR.le, mul_sqrt_mul_self _ hqR.le]
      constructor <;> intro hcc <;> exact_mod_cast hcc
  · push_neg at ha
    have haR : (0 : ℝ) < (x.1 : ℝ) := by exact_mod_cast ha
    by_cases hb : y.1 ≤ 0
    · have hbR : (y.1 : ℝ) ≤ 0 := by exact_mod_cast hb
      have h1 : (0:ℝ) < (x.1 : ℝ) * Real.sqrt (y.2 : ℝ) := mul_pos haR hsq
      have h2 : (y.1 : ℝ) * Real.sqrt (x.2 : ℝ) ≤ 0 :=
        mul_nonpos_iff.mpr (Or.inr ⟨hbR, hsp.le⟩)
      simp only [radLe, if_neg (not_le.mpr ha), if_pos hb]
      constructor
      · intro hcc; exact absurd hcc (by simp)
      · intro hcc; exact absurd hcc (not_le.mpr (lt_of_le_of_lt h2 h1))
    · simp only [radLe, if_neg (not_le.mpr ha), if_neg hb, decide_eq_true_eq]
      push_neg at hb
      have hbR : (0 : ℝ) < (y.1 : ℝ) := by exact_mod_cast hb
      rw [mul_self_le_mul_self_iff
            (by positivity : (0:ℝ) ≤ (x.1 : ℝ) * Real.sqrt (y.2 : ℝ))
            (by positivity : (0:ℝ) ≤ (y.1 : ℝ) * Real.sqrt (x.2 : ℝ)),
          mul_sqrt_mul_self _ hqR.le, mul_sqrt_mul_self _ hpR.le]
      constructor <;> intro hcc <;> exact_mod_cast hcc

theorem Score.le_iff_val {s t : Score} (hs : s.WF) (ht : t.WF) :
    Score.le s t = true ↔ s.val ≤ t.val := by
  obtain ⟨hp, hv⟩ := nval_spec s hs
  obtain ⟨hq, hw⟩ := nval_spec t ht
  rw [hv, hw, Score.le, radLe_iff _ _ hp hq]

theorem Score.lt_iff_val {s t : Score} (hs : s.WF) (ht : t.WF) :
    Score.lt s t = true ↔ s.val < t.val := by
  rw [Score.lt, lt_iff_not_le, ← Score.le_iff_val ht hs]
  simp

theorem Score.lt_eq_false_iff {s t : Score} (hs : s.WF) (ht : t.WF) :
    Score.lt s t = false ↔ t.val ≤ s.val := by
  rw [Score.lt, ← Score.le_iff_val ht hs]
  simp

theorem Score.val_eq_iff {s t : Score} (hs : s.WF) (ht : t.WF) :
    s.val = t.val ↔ (Score.le s t && Score.le t s) = true := by
  rw [Bool.and_eq_true, Score.le_iff_val hs ht, Score.le_iff_val ht hs, le_antisymm_iff]

end App
namespace App

theorem insertDesc_perm (x : Int × Score) (l : List (Int × Score)) :
    (insertDesc x l).Perm (x :: l) := by
  induction l with
  | nil => simp [insertDesc]
  | cons y l ih =>
    by_cases h : Score.lt x.2 y.2
    · simp only [insertDesc, if_pos h]
      exact ((ih.cons y).trans (List.Perm.swap x y l))
    · simp only [insertDesc, if_neg h]
      exact List.Perm.refl _

theorem sortDesc_perm (l : List (Int × Score)) : (sortDesc l).Perm l := by
  induction l with
  | nil => simp [sortDesc]
  | cons x l ih =>
    exact (insertDesc_perm x (sortDesc l)).trans (ih.cons x)

theorem mem_sortDesc {y : Int × Score} {l : List (Int × Score)} :
    y ∈ sortDesc l ↔ y ∈ l :=
  (sortDesc_perm l).mem_iff

/-- Descending sortedness on real similarity values. -/
def SortedDesc (l : List (Int × Score)) : Prop :=
  l.Pairwise (fun a b => (b.2).val ≤ (a.2).val)

theorem insertDesc_sorted (x : Int × Score) (l : List (Int × Score))
    (hx : x.2.WF) (hl : ∀ y ∈ l, y.2.WF) (h : SortedDesc l) :
    SortedDesc (insertDesc x l) := by
  induction l with
  | nil => simp [insertDesc, SortedDesc]
  | cons y l ih =>
    have hyWF : y.2.WF := hl y (by simp)
    have hlWF : ∀ z ∈ l, z.2.WF := fun z hz => hl z (by simp [hz])
    rw [SortedDesc, List.pairwise_cons] at h
    by_cases hc : Score.lt x.2 y.2
    · simp only [insertDesc, if_pos hc]
      rw [SortedDesc, List.pairwise_cons]
      refine ⟨?_, ih hlWF h.2⟩
      intro z hz
      rcases List.mem_cons.mp ((insertDesc_perm x l).mem_iff.mp hz) with rfl | hzl
      · exact ((Score.lt_iff_val hx hyWF).mp hc).le
      · exact h.1 z hzl
    · simp only [insertDesc, if_neg hc]
      rw [SortedDesc, List.pairwise_cons]
      have hcf : Score.lt x.2 y.2 = false := by simpa using hc
      have hyx : y.2.val ≤ x.2.val := (Score.lt_eq_false_iff hx hyWF).mp hcf
      refine ⟨?_, ?_⟩
      · intro z hz
        rcases List.mem_cons.mp hz with hzy | hzl
        · subst hzy; exact hyx
        · exact le_trans (h.1 z hzl) hyx
      · exact List.Pairwise.cons h.1 h.2

theorem sortDesc_sorted (l : List (Int × Score)) (hl : ∀ y ∈ l, y.2.WF) :
    SortedDesc (sortDesc l) := by
  induction l with
  | nil => simp [sortDesc, SortedDesc]
  | cons x l ih =>
    have hx : x.2.WF := hl x (by simp)
    have hlWF : ∀ z ∈ l, z.2.WF := fun z hz => hl z (by simp [hz])
    exact insertDesc_sorted x (sortDesc l) hx
      (fun y hy => hlWF y (mem_sortDesc.mp hy)) (ih hlWF)

theorem insertDesc_eq_cons (x : Int × Score) (l : List (Int × Score))
    (h : ∀ y ∈ l, Score.lt x.2 y.2 = false) :
    insertDesc x l = x :: l := by
  cases l with
  | nil => rfl
  | cons y l =>
    have hy := h y (List.mem_cons_self y l)
    simp only [insertDesc]
    rw [hy]
    simp

theorem sortDesc_eq_self (l : List (Int × Score))
    (h : ∀ x ∈ l, ∀ y ∈ l, Score.lt x.2 y.2 = false) :
    sortDesc l = l := by
  induction l with
  | nil => rfl
  | cons x l ih =>
    have ht : sortDesc l = l :=
      ih (fun a ha b hb => h a (by simp [ha]) b (by simp [hb]))
    simp only [sortDesc, ht]
    exact insertDesc_eq_cons x l
      (fun y hy => h x (by simp) y (by simp [hy]))

theorem sortDesc_head_max (l : List (Int × Score)) (hl : ∀ y ∈ l, y.2.WF)
    (x : Int × Score) (hx : x ∈ l) (h : Int × Score) (t : List (Int × Score))
    (he : sortDesc l = h :: t) : x.2.val ≤ h.2.val := by
  have hs := sortDesc_sorted l hl
  rw [SortedDesc, he, List.pairwise_cons] at hs
  have : x ∈ h :: t := he ▸ mem_sortDesc.mpr hx
  rcases List.mem_cons.mp this with hxh | hxt
  · subst hxh; exact le_refl _
  · exact hs.1 x hxt

end App
namespace App

theorem mapExcept_ok {α β : Type} (f : α → Except RecError β) (g : α → β)
    (l : List α) (h : ∀ x ∈ l, f x = .ok (g x)) :
    mapExcept f l = .ok (l.map g) := by
  induction l with
  | nil => rfl
  | cons x l ih =>
    have hx := h x (by simp)
    have ht := ih (fun y hy => h y (by simp [hy]))
    simp only [mapExcept, hx, ht, List.map_cons]

theorem mapExcept_map {α γ β : Type} (f : γ → Except RecError β) (h : α → γ)
    (l : List α) : mapExcept f (l.map h) = mapExcept (fun a => f (h a)) l := by
  induction l with
  | nil => rfl
  | cons x l ih => simp only [List.map_cons, mapExcept, ih]

theorem mapExcept_scoreOf_ok (prefs : List Int) (cs : List Content)
    (h : ∀ c ∈ cs, c.features.length = prefs.length) :
    mapExcept (scoreOf prefs) cs = .ok (simsOf prefs cs) :=
  mapExcept_ok _ _ cs (fun c hc => by simp [scoreOf, h c hc])

theorem mapExcept_scoreOf_error (prefs : List Int) (cs : List Content)
    (h : ∃ c ∈ cs, c.features.length ≠ prefs.length) :
    mapExcept (scoreOf prefs) cs = .error .dimMismatch := by
  induction cs with
  | nil => simp at h
  | cons c cs ih =>
    by_cases hc : c.features.length = prefs.length
    · have htail : ∃ c' ∈ cs, c'.features.length ≠ prefs.length := by
        rcases h with ⟨c', hc', hne⟩
        rcases List.mem_cons.mp hc' with rfl | hmem
        · exact absurd hc hne
        · exact ⟨c', hmem, hne⟩
      simp only [mapExcept, scoreOf, if_pos hc, ih htail]
    · simp only [mapExcept, scoreOf, if_neg hc]

theorem find?_of_nodup_ids (cs : List Content) (c : Content)
    (hnd : (cs.map (·.id)).Nodup) (hc : c ∈ cs) :
    cs.find? (fun x => x.id == c.id) = some c := by
  induction cs with
  | nil => simp at hc
  | cons a cs ih =>
    rcases List.mem_cons.mp hc with rfl | hmem
    · simp [List.find?]
    · have hne : a.id ≠ c.id := by
        intro he
        have : c.id ∈ cs.map (·.id) := List.mem_map.mpr ⟨c, hmem, rfl⟩
        rw [List.map_cons, List.nodup_cons] at hnd
        exact hnd.1 (he ▸ this)
      have hnd' : (cs.map (·.id)).Nodup := by
        rw [List.map_cons, List.nodup_cons] at hnd
        exact hnd.2
      rw [List.find?_cons_of_neg _ (by simpa using hne)]
      exact ih hnd' hmem

theorem dot_sq_le (u v : List Int) : dot u v * dot u v ≤ sumSq u * sumSq v := by
  induction u generalizing v with
  | nil =>
    cases v <;> simp [dot, sumSq]
  | cons a u ih =>
    cases v with
    | nil => simp [dot, sumSq]
    | cons b v =>
      have hp := sumSq_nonneg u
      have hq := sumSq_nonneg v
      have hIH := ih v
      simp only [dot, sumSq]
      rcases lt_or_eq_of_le hp with hp' | hp'
      · nlinarith [mul_self_nonneg (a * dot u v - b * sumSq u),
          mul_nonneg hp (sub_nonneg.mpr hIH),
          mul_nonneg (mul_self_nonneg a) (sub_nonneg.mpr hIH)]
      · have hd : dot u v = 0 := by nlinarith [mul_self_nonneg (dot u v)]
        rw [hd, ← hp']
        nlinarith [mul_nonneg (mul_self_nonneg a) hq]

end App
namespace App

theorem val_zero_norm (u f : List Int) (h : sumSq u = 0 ∨ sumSq f = 0) :
    (mkScore u f).val = 0 := by
  simp [mkScore, Score.val, h]

theorem val_pos_eq (s : Score) (h1 : (0:Int) < s.u2) (h2 : (0:Int) < s.f2) :
    s.val = (s.d : ℝ) / Real.sqrt ((s.u2 : ℝ) * (s.f2 : ℝ)) := by
  have hne : ¬(s.u2 = 0 ∨ s.f2 = 0) := by
    push_neg
    exact ⟨h1.ne.symm, h2.ne.symm⟩
  simp only [Score.val]
  rw [if_neg hne, Real.sqrt_mul (by exact_mod_cast h1.le)]

theorem val_le_one (u f : List Int) : (mkScore u f).val ≤ 1 := by
  by_cases h : sumSq u = 0 ∨ sumSq f = 0
  · rw [val_zero_norm u f h]
    norm_num
  · push_neg at h
    have hu : (0:Int) < sumSq u := lt_of_le_of_ne (sumSq_nonneg u) (Ne.symm h.1)
    have hf : (0:Int) < sumSq f := lt_of_le_of_ne (sumSq_nonneg f) (Ne.symm h.2)
    rw [val_pos_eq (mkScore u f) hu hf]
    have hprod : (0:ℝ) < (sumSq u : ℝ) * (sumSq f : ℝ) := by
      have : (0:ℝ) < (sumSq u : ℝ) := by exact_mod_cast hu
      have h2R : (0:ℝ) < (sumSq f : ℝ) := by exact_mod_cast hf
      positivity
    show ((dot u f : ℝ)) / Real.sqrt ((sumSq u : ℝ) * (sumSq f : ℝ)) ≤ 1
    rw [div_le_one (Real.sqrt_pos.mpr hprod)]
    have hcs : ((dot u f : ℝ)) * ((dot u f : ℝ)) ≤ (sumSq u : ℝ) * (sumSq f : ℝ) := by
      exact_mod_cast dot_sq_le u f
    calc ((dot u f : ℝ)) ≤ |(dot u f : ℝ)| := le_abs_self _
      _ = Real.sqrt ((dot u f : ℝ) * (dot u f : ℝ)) := (Real.sqrt_mul_self_eq_abs _).symm
      _ ≤ Real.sqrt ((sumSq u : ℝ) * (sumSq f : ℝ)) := Real.sqrt_le_sqrt hcs

theorem dot_self (u : List Int) : dot u u = sumSq u := by
  induction u with
  | nil => rfl
  | cons a u ih => simp [dot, sumSq, ih]

theorem dot_map_right (c : Int) (u v : List Int) :
    dot u (v.map (fun x => c * x)) = c * dot u v := by
  induction u generalizing v with
  | nil => cases v <;> simp [dot]
  | cons a u ih =>
    cases v with
    | nil => simp [dot]
    | cons b v =>
      simp only [List.map_cons, dot, ih]
      ring

theorem sumSq_map (c : Int) (v : List Int) :
    sumSq (v.map (fun x => c * x)) = c * c * sumSq v := by
  induction v with
  | nil => simp [sumSq]
  | cons b v ih =>
    simp only [List.map_cons, sumSq, ih]
    ring

theorem val_scaled (u f : List Int) (m n : Int) (hm : 0 < m) (hn : 0 < n)
    (hf : f.map (fun x => n * x) = u.map (fun x => m * x))
    (hu : sumSq u ≠ 0) : (mkScore u f).val = 1 := by
  have hP : (0:Int) < sumSq u := lt_of_le_of_ne (sumSq_nonneg u) (Ne.symm hu)
  have hd : n * dot u f = m * sumSq u := by
    have h1 : dot u (f.map (fun x => n * x)) = dot u (u.map (fun x => m * x)) := by
      rw [hf]
    rw [dot_map_right, dot_map_right, dot_self] at h1
    exact h1
  have hF : n * n * sumSq f = m * m * sumSq u := by
    have h1 : sumSq (f.map (fun x => n * x)) = sumSq (u.map (fun x => m * x)) := by
      rw [hf]
    rw [sumSq_map, sumSq_map] at h1
    exact h1
  have hFpos : (0:Int) < sumSq f := by nlinarith
  rw [val_pos_eq (mkScore u f) hP hFpos]
  have hpR : (0:ℝ) < (sumSq u : ℝ) := by exact_mod_cast hP
  have hmR : (0:ℝ) < (m : ℝ) := by exact_mod_cast hm
  have hnR : (0:ℝ) < (n : ℝ) := by exact_mod_cast hn
  have hsp : (0:ℝ) < Real.sqrt (sumSq u : ℝ) := Real.sqrt_pos.mpr hpR
  have hdR : (n:ℝ) * (dot u f : ℝ) = (m:ℝ) * (sumSq u : ℝ) := by exact_mod_cast hd
  have hFR : (n:ℝ) * (n:ℝ) * (sumSq f : ℝ) = (m:ℝ) * (m:ℝ) * (sumSq u : ℝ) := by
    exact_mod_cast hF
  have hsF : Real.sqrt ((sumSq u : ℝ) * (sumSq f : ℝ)) =
      (m:ℝ) * (sumSq u : ℝ) / (n:ℝ) := by
    rw [Real.sqrt_eq_iff_mul_self_eq_of_pos (by positivity)]
    field_simp
    nlinarith [Real.mul_self_sqrt hpR.le]
  show ((dot u f : ℝ)) / Real.sqrt ((sumSq u : ℝ) * (sumSq f : ℝ)) = 1
  rw [hsF]
  have hdval : (dot u f : ℝ) = (m:ℝ) * (sumSq u : ℝ) / (n:ℝ) := by
    field_simp
    linarith [hdR]
  rw [hdval]
  field_simp

end App
namespace App

theorem val_mk_eq (d u2 f2 : Int) (h1 : 0 < u2) (h2 : 0 < f2) :
    (Score.mk d u2 f2).val = (d : ℝ) / Real.sqrt ((u2 : ℝ) * (f2 : ℝ)) :=
  val_pos_eq _ h1 h2

theorem val_u1c1_lb : (87/100 : ℝ) < (Score.mk 10 66 2).val := by
  rw [val_mk_eq 10 66 2 (by norm_num) (by norm_num),
    show (((66:Int):ℝ) * ((2:Int):ℝ)) = 132 by norm_num]
  have hs : (0:ℝ) < Real.sqrt 132 := Real.sqrt_pos.mpr (by norm_num)
  have hub : Real.sqrt 132 < 1000/87 := by
    rw [Real.sqrt_lt' (by norm_num)]
    norm_num
  rw [lt_div_iff₀ hs]
  push_cast
  linarith

theorem val_u1c1_ub : (Score.mk 10 66 2).val < 22/25 := by
  rw [val_mk_eq 10 66 2 (by norm_num) (by norm_num),
    show (((66:Int):ℝ) * ((2:Int):ℝ)) = 132 by norm_num]
  have hs : (0:ℝ) < Real.sqrt 132 := Real.sqrt_pos.mpr (by norm_num)
  have hlb : (125/11 : ℝ) < Real.sqrt 132 := by
    rw [Real.lt_sqrt (by norm_num)]
    norm_num
  rw [div_lt_iff₀ hs]
  push_cast
  linarith

theorem val_u1c2_lb : (39/50 : ℝ) < (Score.mk 9 66 2).val := by
  rw [val_mk_eq 9 66 2 (by norm_num) (by norm_num),
    show (((66:Int):ℝ) * ((2:Int):ℝ)) = 132 by norm_num]
  have hs : (0:ℝ) < Real.sqrt 132 := Real.sqrt_pos.mpr (by norm_num)
  have hub : Real.sqrt 132 < 150/13 := by
    rw [Real.sqrt_lt' (by norm_num)]
    norm_num
  rw [lt_div_iff₀ hs]
  push_cast
  linarith

theorem val_u1c2_ub : (Score.mk 9 66 2).val < 79/100 := by
  rw [val_mk_eq 9 66 2 (by norm_num) (by norm_num),
    show (((66:Int):ℝ) * ((2:Int):ℝ)) = 132 by norm_num]
  have hs : (0:ℝ) < Real.sqrt 132 := Real.sqrt_pos.mpr (by norm_num)
  have hlb : (900/79 : ℝ) < Real.sqrt 132 := by
    rw [Real.lt_sqrt (by norm_num)]
    norm_num
  rw [div_lt_iff₀ hs]
  push_cast
  linarith

theorem val_u1c3 : (Score.mk 0 66 2).val = 0 := by
  rw [val_mk_eq 0 66 2 (by norm_num) (by norm_num)]
  norm_num

theorem val_u1c4 : (Score.mk 0 66 1).val = 0 := by
  rw [val_mk_eq 0 66 1 (by norm_num) (by norm_num)]
  norm_num

theorem val_u2c1 : (Score.mk 3 50 2).val = 3/10 := by
  rw [val_mk_eq 3 50 2 (by norm_num) (by norm_num),
    show (((50:Int):ℝ) * ((2:Int):ℝ)) = 100 by norm_num,
    show Real.sqrt (100:ℝ) = 10 by
      rw [show (100:ℝ) = 10^2 by norm_num, Real.sqrt_sq (by norm_num)]]
  push_cast
  norm_num

theorem val_u2c3 : (Score.mk 9 50 2).val = 9/10 := by
  rw [val_mk_eq 9 50 2 (by norm_num) (by norm_num),
    show (((50:Int):ℝ) * ((2:Int):ℝ)) = 100 by norm_num,
    show Real.sqrt (100:ℝ) = 10 by
      rw [show (100:ℝ) = 10^2 by norm_num, Real.sqrt_sq (by norm_num)]]
  push_cast
  norm_num

theorem val_u2c4_lb : (7/10 : ℝ) < (Score.mk 5 50 1).val := by
  rw [val_mk_eq 5 50 1 (by norm_num) (by norm_num),
    show (((50:Int):ℝ) * ((1:Int):ℝ)) = 50 by norm_num]
  have hs : (0:ℝ) < Real.sqrt 50 := Real.sqrt_pos.mpr (by norm_num)
  have hub : Real.sqrt 50 < 50/7 := by
    rw [Real.sqrt_lt' (by norm_num)]
    norm_num
  rw [lt_div_iff₀ hs]
  push_cast
  linarith

theorem val_u2c4_ub : (Score.mk 5 50 1).val < 71/100 := by
  rw [val_mk_eq 5 50 1 (by norm_num) (by norm_num),
    show (((50:Int):ℝ) * ((1:Int):ℝ)) = 50 by norm_num]
  have hs : (0:ℝ) < Real.sqrt 50 := Real.sqrt_pos.mpr (by norm_num)
  have hlb : (500/71 : ℝ) < Real.sqrt 50 := by
    rw [Real.lt_sqrt (by norm_num)]
    norm_num
  rw [div_lt_iff₀ hs]
  push_cast
  linarith

end App
namespace App

theorem sumSq_zero_of_all (u : List Int) (h : ∀ x ∈ u, x = 0) : sumSq u = 0 := by
  induction u with
  | nil => rfl
  | cons a u ih =>
    have ha : a = 0 := h a (by simp)
    have ht : sumSq u = 0 := ih (fun x hx => h x (by simp [hx]))
    simp [sumSq, ha, ht]

theorem Score.lt_of_zero_u2 (s t : Score) (hs : s.u2 = 0) (ht : t.u2 = 0) :
    Score.lt s t = false := by
  simp [Score.lt, Score.le, Score.nval, hs, ht, radLe]

end App

/-- C9: `recommend` is a pure, deterministic function of the two static
datasets and the `user_id` argument: as a state transformer it leaves the
datasets unchanged, and a repeated call on the resulting state returns the
identical response. -/
theorem C9_purity :
    ∀ (st : App.AppState) (uid : Option Int),
      App.recommendStep st uid = (App.recommend st.1 st.2 uid, st) ∧
      (App.recommendStep st uid).2 = st ∧
      App.recommendStep ((App.recommendStep st uid).2) uid =
        App.recommendStep st uid :=
  fun _ _ => ⟨rfl, rfl, rfl⟩

/-- C5: for every `userId` absent from the user dataset, the route returns
the 404 response with the error field `"User not found"` and no
recommendations list (and does not raise). -/
theorem C5_unknown_user :
    ∀ k : Int, App.users.lookup k = none →
      App.recommend App.users App.contents (some k) =
        .ok ⟨404, some "User not found", none⟩ := by
  intro k h
  simp [App.recommend, h]

/-- C5 witness: userId 42 is absent and gets the 404 response. -/
theorem C5_witness :
    App.users.lookup 42 = none ∧
      App.recommend App.users App.contents (some 42) =
        .ok ⟨404, some "User not found", none⟩ :=
  ⟨by decide, C5_unknown_user 42 (by decide)⟩

/-- C10: a JSON object body without a `user_id` field yields the `none`
sentinel, which is not a key of the user dataset, so the route answers the
same 404 "User not found" response as for an unknown user, rather than a
distinct malformed-request error or a crash. -/
theorem C10_missing_user_id :
    ∀ body : List (String × Int), body.lookup "user_id" = none →
      App.handleRequest body = .ok ⟨404, some "User not found", none⟩ ∧
      (∀ p ∈ App.users, some p.1 ≠ (none : Option Int)) := by
  intro body h
  refine ⟨?_, ?_⟩
  · simp [App.handleRequest, h, App.recommend]
  · intro p _
    simp

/-- C10 witness: a body with only an unrelated field gets the 404. -/
theorem C10_witness :
    ([("foo", 7)] : List (String × Int)).lookup "user_id" = none ∧
      (App.handleRequest [("foo", 7)] = .ok ⟨404, some "User not found", none⟩ ∧
        (∀ p ∈ App.users, some p.1 ≠ (none : Option Int))) :=
  ⟨by decide, C10_missing_user_id [("foo", 7)] (by decide)⟩

/-- C6: a user/content pair with mismatched vector lengths makes the
similarity call fail at that pair with the dimension-mismatch error
(`sklearn`'s `ValueError`), and the whole request then fails with that
error instead of producing any similarity score. -/
theorem C6_dimension_mismatch :
    (∀ (prefs : List Int) (c : App.Content),
        c.features.length ≠ prefs.length →
        App.scoreOf prefs c = .error .dimMismatch) ∧
    (∀ (us : List (Int × List Int)) (cs : List App.Content) (k : Int)
        (prefs : List Int),
        us.lookup k = some prefs →
        (∃ c ∈ cs, c.features.length ≠ prefs.length) →
        App.recommend us cs (some k) = .error .dimMismatch) := by
  constructor
  · intro prefs c h
    simp [App.scoreOf, h]
  · intro us cs k prefs hl hex
    have hm := App.mapExcept_scoreOf_error prefs cs hex
    simp [App.recommend, hl, hm]

/-- C6 witness: a catalog entry with a 1-dimensional feature vector against
a 2-dimensional preference vector fails with the dimension-mismatch error. -/
theorem C6_witness :
    ((App.Content.mk 1 "A" [1]).features.length ≠ ([1, 2] : List Int).length ∧
      App.scoreOf [1, 2] (App.Content.mk 1 "A" [1]) = .error .dimMismatch) ∧
    (([((1 : Int), ([1, 2] : List Int))].lookup (1 : Int) = some [1, 2]) ∧
      App.recommend [(1, [1, 2])] [App.Content.mk 1 "A" [1]] (some 1) =
        .error .dimMismatch) :=
  ⟨⟨by decide, C6_dimension_mismatch.1 [1, 2] (App.Content.mk 1 "A" [1]) (by decide)⟩,
   ⟨by decide, C6_dimension_mismatch.2 [(1, [1, 2])] [App.Content.mk 1 "A" [1]] 1 [1, 2]
      (by decide) ⟨App.Content.mk 1 "A" [1], by decide, by decide⟩⟩⟩

/-- C3: for every userId in the user dataset the returned title list has
length exactly `min 3 catalogSize`. -/
theorem C3_output_length :
    ∀ (k : Int) (prefs : List Int), (k, prefs) ∈ App.users →
      ∃ ts : List String,
        App.recommend App.users App.contents (some k) = .ok ⟨200, none, some ts⟩ ∧
        ts.length = min 3 App.contents.length := by
  intro k prefs h
  simp only [App.users, List.mem_cons, List.not_mem_nil, or_false, Prod.mk.injEq] at h
  rcases h with ⟨rfl, rfl⟩ | ⟨rfl, rfl⟩
  · exact ⟨["Action Adventure", "Fantasy Tale", "Sci-Fi Epic"], by decide, by decide⟩
  · exact ⟨["Comedy Special", "Drama Series", "Action Adventure"], by decide, by decide⟩

/-- C3 witness: userId 1 gets a title list of length `min 3 5 = 3`. -/
theorem C3_witness :
    ((1 : Int), ([5, 4, 0, 0, 5] : List Int)) ∈ App.users ∧
      ∃ ts : List String,
        App.recommend App.users App.contents (some 1) = .ok ⟨200, none, some ts⟩ ∧
        ts.length = min 3 App.contents.length :=
  ⟨by decide, C3_output_length 1 [5, 4, 0, 0, 5] (by decide)⟩

/-- C1 counterexample: the spec claims the id-1 similarity for user 1 is
approximately 0.928, but the computed value `10 / √132 ≈ 0.870` is more
than 0.04 below 0.928. -/
theorem C1_counterexample :
    (1/25 : ℝ) < (928/1000 : ℝ) - (App.mkScore [5, 4, 0, 0, 5] [1, 0, 0, 0, 1]).val := by
  have h : (App.mkScore [5, 4, 0, 0, 5] [1, 0, 0, 0, 1]).val < 22/25 := App.val_u1c1_ub
  linarith

/-- C1 (amended): for userId 1 (preferences `[5,4,0,0,5]`) the per-item
similarities are `10/√132 ≈ 0.870` for ids 1 and 5 (an exact tie, the two
feature vectors being identical), `9/√132 ≈ 0.783` for id 2 and `0` for
ids 3 and 4; the sorted pair list puts id 1 before id 5 by the stable
tie-break and the returned titles are exactly
`["Action Adventure", "Fantasy Tale", "Sci-Fi Epic"]`. -/
theorem C1_fixture_ranking :
    ((87/100 : ℝ) < (App.mkScore [5, 4, 0, 0, 5] [1, 0, 0, 0, 1]).val ∧
      (App.mkScore [5, 4, 0, 0, 5] [1, 0, 0, 0, 1]).val < 22/25) ∧
    ((39/50 : ℝ) < (App.mkScore [5, 4, 0, 0, 5] [0, 1, 0, 0, 1]).val ∧
      (App.mkScore [5, 4, 0, 0, 5] [0, 1, 0, 0, 1]).val < 79/100) ∧
    (App.mkScore [5, 4, 0, 0, 5] [0, 0, 1, 1, 0]).val = 0 ∧
    (App.mkScore [5, 4, 0, 0, 5] [0, 0, 1, 0, 0]).val = 0 ∧
    (App.mkScore [5, 4, 0, 0, 5]
        ((App.contents.get ⟨4, by decide⟩).features)).val =
      (App.mkScore [5, 4, 0, 0, 5]
        ((App.contents.get ⟨0, by decide⟩).features)).val ∧
    App.sortDesc (App.simsOf [5, 4, 0, 0, 5] App.contents) =
      [(1, ⟨10, 66, 2⟩), (5, ⟨10, 66, 2⟩), (2, ⟨9, 66, 2⟩),
       (3, ⟨0, 66, 2⟩), (4, ⟨0, 66, 1⟩)] ∧
    App.recommend App.users App.contents (some 1) =
      .ok ⟨200, none, some ["Action Adventure", "Fantasy Tale", "Sci-Fi Epic"]⟩ := by
  refine ⟨⟨App.val_u1c1_lb, App.val_u1c1_ub⟩, ⟨App.val_u1c2_lb, App.val_u1c2_ub⟩,
    App.val_u1c3, App.val_u1c4, rfl, by decide, by decide⟩

/-- C2 counterexample: the spec claims ids 1, 2 and 5 score exactly 0 for
userId 2, but the computed id-1 similarity is exactly `3/10`. -/
theorem C2_counterexample :
    (App.mkScore [0, 0, 5, 4, 3] [1, 0, 0, 0, 1]).val = 3/10 ∧ (3/10 : ℝ) ≠ 0 :=
  ⟨App.val_u2c1, by norm_num⟩

/-- C2 (amended): for userId 2 (preferences `[0,0,5,4,3]`) id 3 ranks first
with similarity exactly `9/10` and id 4 second with `5/√50 ≈ 0.707`, while
ids 1, 2 and 5 each score exactly `3/10` (not 0); the top-3 title list is
`["Comedy Special", "Drama Series", "Action Adventure"]`, with
`"Comedy Special"` first. -/
theorem C2_fixture_ranking :
    (App.mkScore [0, 0, 5, 4, 3] [0, 0, 1, 1, 0]).val = 9/10 ∧
    ((7/10 : ℝ) < (App.mkScore [0, 0, 5, 4, 3] [0, 0, 1, 0, 0]).val ∧
      (App.mkScore [0, 0, 5, 4, 3] [0, 0, 1, 0, 0]).val < 71/100) ∧
    (App.mkScore [0, 0, 5, 4, 3] [1, 0, 0, 0, 1]).val = 3/10 ∧
    (App.mkScore [0, 0, 5, 4, 3] [0, 1, 0, 0, 1]).val = 3/10 ∧
    (App.mkScore [0, 0, 5, 4, 3]
        ((App.contents.get ⟨4, by decide⟩).features)).val = 3/10 ∧
    (App.sortDesc (App.simsOf [0, 0, 5, 4, 3] App.contents)).map (fun r => r.1) =
      [3, 4, 1, 2, 5] ∧
    App.recommend App.users App.contents (some 2) =
      .ok ⟨200, none, some ["Comedy Special", "Drama Series", "Action Adventure"]⟩ := by
  refine ⟨App.val_u2c3, ⟨App.val_u2c4_lb, App.val_u2c4_ub⟩,
    App.val_u2c1, App.val_u2c1, App.val_u2c1, by decide, by decide⟩
/-- C7: a zero-norm vector on either side yields similarity 0 rather than a
division error, and a user whose preference vector is all zeros gets every
similarity equal to 0 and receives the first `min 3 catalogSize` catalog
titles in original catalog order (the stable sort fixes the all-tied list). -/
theorem C7_zero_vector :
    (∀ u f : List Int, App.sumSq u = 0 ∨ App.sumSq f = 0 →
        (App.mkScore u f).val = 0) ∧
    (∀ (us : List (Int × List Int)) (cs : List App.Content) (k : Int)
        (prefs : List Int),
        us.lookup k = some prefs →
        (∀ x ∈ prefs, x = 0) →
        (∀ c ∈ cs, c.features.length = prefs.length) →
        (cs.map (fun c => c.id)).Nodup →
        App.recommend us cs (some k) =
          .ok ⟨200, none, some ((cs.take 3).map (fun c => c.title))⟩ ∧
        ((cs.take 3).map (fun c => c.title)).length = min 3 cs.length) := by
  constructor
  · exact App.val_zero_norm
  · intro us cs k prefs hl hz hlen hnd
    have hzero : App.sumSq prefs = 0 := App.sumSq_zero_of_all prefs hz
    have hok := App.mapExcept_scoreOf_ok prefs cs hlen
    have hsort : App.sortDesc (App.simsOf prefs cs) = App.simsOf prefs cs := by
      apply App.sortDesc_eq_self
      intro x hx y hy
      obtain ⟨cx, hcx, rfl⟩ := List.mem_map.mp hx
      obtain ⟨cy, hcy, rfl⟩ := List.mem_map.mp hy
      exact App.Score.lt_of_zero_u2 _ _ hzero hzero
    have htake : (App.simsOf prefs cs).take 3 =
        (cs.take 3).map (fun c => (c.id, App.mkScore prefs c.features)) := by
      rw [App.simsOf, List.map_take]
    have htitles : App.mapExcept (App.titleOf cs) ((App.simsOf prefs cs).take 3) =
        .ok ((cs.take 3).map (fun c => c.title)) := by
      rw [htake, App.mapExcept_map]
      apply App.mapExcept_ok
      intro c hc
      have hcs : c ∈ cs := List.take_subset 3 cs hc
      simp only [App.titleOf]
      rw [App.find?_of_nodup_ids cs c hnd hcs]
    constructor
    · simp [App.recommend, hl, hok, hsort, htitles]
    · simp [List.length_take]
/-- C7 witness: an all-zero two-dimensional user against a two-item catalog
gets both titles, in catalog order, with list length `min 3 2 = 2`. -/
theorem C7_witness :
    (([((7 : Int), ([0, 0] : List Int))].lookup (7 : Int) = some [0, 0]) ∧
      (∀ x ∈ ([0, 0] : List Int), x = 0) ∧
      (∀ c ∈ [App.Content.mk 1 "A" [1, 2], App.Content.mk 2 "B" [3, 4]],
        c.features.length = ([0, 0] : List Int).length) ∧
      ([App.Content.mk 1 "A" [1, 2], App.Content.mk 2 "B" [3, 4]].map
        (fun c => c.id)).Nodup) ∧
    App.recommend [(7, [0, 0])]
        [App.Content.mk 1 "A" [1, 2], App.Content.mk 2 "B" [3, 4]] (some 7) =
      .ok ⟨200, none, some
        (([App.Content.mk 1 "A" [1, 2], App.Content.mk 2 "B" [3, 4]].take 3).map
          (fun c => c.title))⟩ ∧
    (([App.Content.mk 1 "A" [1, 2], App.Content.mk 2 "B" [3, 4]].take 3).map
        (fun c => c.title)).length =
      min 3 [App.Content.mk 1 "A" [1, 2], App.Content.mk 2 "B" [3, 4]].length :=
  ⟨⟨by decide, by decide, by decide, by decide⟩,
    C7_zero_vector.2 [(7, [0, 0])]
      [App.Content.mk 1 "A" [1, 2], App.Content.mk 2 "B" [3, 4]] 7 [0, 0]
      (by decide) (by decide) (by decide) (by decide)⟩

/-- C8: if a catalog item's feature vector is a positive (rational) scaling
of the user's preference vector — `n • features = m • prefs` with
`m, n > 0` — and the preference vector is nonzero, then that item's
similarity is exactly 1, every item's similarity is at most 1
(Cauchy-Schwarz), and the head of the sorted pair list has similarity 1,
so a maximal item ranks first subject to the stable tie-break. -/
theorem C8_scaling_max :
    ∀ (us : List (Int × List Int)) (cs : List App.Content) (k : Int)
      (prefs : List Int) (c0 : App.Content) (m n : Int),
      us.lookup k = some prefs → c0 ∈ cs → 0 < m → 0 < n →
      c0.features.map (fun x => n * x) = prefs.map (fun x => m * x) →
      App.sumSq prefs ≠ 0 →
      (∀ c ∈ cs, c.features.length = prefs.length) →
      (App.mkScore prefs c0.features).val = 1 ∧
      (∀ c ∈ cs, (App.mkScore prefs c.features).val ≤ 1) ∧
      App.mapExcept (App.scoreOf prefs) cs = .ok (App.simsOf prefs cs) ∧
      ∃ (h0 : Int × App.Score) (t : List (Int × App.Score)),
        App.sortDesc (App.simsOf prefs cs) = h0 :: t ∧ (h0.2).val = 1 := by
  intro us cs k prefs c0 m n hl hc0 hm hn hscale hsum hlen
  have h1 : (App.mkScore prefs c0.features).val = 1 :=
    App.val_scaled prefs c0.features m n hm hn hscale hsum
  have hok := App.mapExcept_scoreOf_ok prefs cs hlen
  refine ⟨h1, fun c _ => App.val_le_one prefs c.features, hok, ?_⟩
  have hmem : (c0.id, App.mkScore prefs c0.features) ∈ App.simsOf prefs cs :=
    List.mem_map.mpr ⟨c0, hc0, rfl⟩
  obtain ⟨h0, t, hht⟩ : ∃ h0 t, App.sortDesc (App.simsOf prefs cs) = h0 :: t := by
    cases hs : App.sortDesc (App.simsOf prefs cs) with
    | nil =>
      exfalso
      have hp := App.sortDesc_perm (App.simsOf prefs cs)
      rw [hs] at hp
      rw [hp.symm.eq_nil] at hmem
      exact List.not_mem_nil _ hmem
    | cons a b => exact ⟨a, b, rfl⟩
  have hWF : ∀ y ∈ App.simsOf prefs cs, (y.2).WF := by
    intro y hy
    obtain ⟨c, _, rfl⟩ := List.mem_map.mp hy
    exact App.mkScore_WF _ _
  have hmax := App.sortDesc_head_max (App.simsOf prefs cs) hWF
    (c0.id, App.mkScore prefs c0.features) hmem h0 t hht
  have hh0mem : h0 ∈ App.simsOf prefs cs :=
    App.mem_sortDesc.mp (hht ▸ List.mem_cons_self h0 t)
  obtain ⟨ch, _, hE⟩ := List.mem_map.mp hh0mem
  have hle1 : (h0.2).val ≤ 1 := by
    rw [← hE]
    exact App.val_le_one prefs ch.features
  have hge1 : (1 : ℝ) ≤ (h0.2).val := by
    rw [← h1]
    exact hmax
  exact ⟨h0, t, hht, le_antisymm hle1 hge1⟩

/-- C8 witness: user vector `[1,0]`, catalog item features `[2,0]` (twice
the user vector): similarity 1 and the sorted head has similarity 1. -/
theorem C8_witness :
    (([((1 : Int), ([1, 0] : List Int))].lookup (1 : Int) = some [1, 0]) ∧
      App.Content.mk 1 "A" [2, 0] ∈ [App.Content.mk 1 "A" [2, 0]] ∧
      (0 : Int) < 2 ∧ (0 : Int) < 1 ∧
      (App.Content.mk 1 "A" [2, 0]).features.map (fun x => 1 * x) =
        ([1, 0] : List Int).map (fun x => 2 * x) ∧
      App.sumSq [1, 0] ≠ 0 ∧
      (∀ c ∈ [App.Content.mk 1 "A" [2, 0]],
        c.features.length = ([1, 0] : List Int).length)) ∧
    ((App.mkScore [1, 0] (App.Content.mk 1 "A" [2, 0]).features).val = 1 ∧
      (∀ c ∈ [App.Content.mk 1 "A" [2, 0]],
        (App.mkScore [1, 0] c.features).val ≤ 1) ∧
      App.mapExcept (App.scoreOf [1, 0]) [App.Content.mk 1 "A" [2, 0]] =
        .ok (App.simsOf [1, 0] [App.Content.mk 1 "A" [2, 0]]) ∧
      ∃ (h0 : Int × App.Score) (t : List (Int × App.Score)),
        App.sortDesc (App.simsOf [1, 0] [App.Content.mk 1 "A" [2, 0]]) = h0 :: t ∧
        (h0.2).val = 1) :=
  ⟨⟨by decide, by decide, by decide, by decide, by decide, by decide, by decide⟩,
    C8_scaling_max [(1, [1, 0])] [App.Content.mk 1 "A" [2, 0]] 1 [1, 0]
      (App.Content.mk 1 "A" [2, 0]) 2 1
      (by decide) (by decide) (by decide) (by decide) (by decide) (by decide)
      (by decide)⟩
/-- C4: for every userId in the user dataset, the sorted `(id, similarity)`
pairs are in descending order of similarity value, items with equal
similarity values keep their original catalog order (stability), and the
returned titles are the titles of the first three sorted pairs. -/
theorem C4_descending_stable :
    ∀ (k : Int) (prefs : List Int), (k, prefs) ∈ App.users →
      ∃ (sims : List (Int × App.Score)) (ts : List String),
        App.mapExcept (App.scoreOf prefs) App.contents = .ok sims ∧
        (App.sortDesc sims).Pairwise (fun a b => (b.2).val ≤ (a.2).val) ∧
        (App.sortDesc sims).Pairwise (fun a b => (a.2).val = (b.2).val →
          App.catIdx App.contents a.1 < App.catIdx App.contents b.1) ∧
        App.mapExcept (App.titleOf App.contents) ((App.sortDesc sims).take 3) =
          .ok ts ∧
        App.recommend App.users App.contents (some k) = .ok ⟨200, none, some ts⟩ := by
  intro k prefs h
  simp only [App.users, List.mem_cons, List.not_mem_nil, or_false, Prod.mk.injEq] at h
  rcases h with ⟨rfl, rfl⟩ | ⟨rfl, rfl⟩
  · refine ⟨App.simsOf [5, 4, 0, 0, 5] App.contents,
      ["Action Adventure", "Fantasy Tale", "Sci-Fi Epic"],
      by decide, App.sortDesc_sorted _ (by decide), ?_, by decide, by decide⟩
    rw [show App.sortDesc (App.simsOf [5, 4, 0, 0, 5] App.contents) =
        [(1, ⟨10, 66, 2⟩), (5, ⟨10, 66, 2⟩), (2, ⟨9, 66, 2⟩),
         (3, ⟨0, 66, 2⟩), (4, ⟨0, 66, 1⟩)] from by decide]
    refine List.Pairwise.cons ?_ (List.Pairwise.cons ?_ (List.Pairwise.cons ?_
      (List.Pairwise.cons ?_ (List.Pairwise.cons (by simp) List.Pairwise.nil))))
    · intro a' ha'
      fin_cases ha' <;> (intro hv; decide)
    · intro a' ha'
      fin_cases ha'
      · intro hv
        exfalso
        have hvv : (App.Score.mk 10 66 2).val = (App.Score.mk 9 66 2).val := hv
        linarith [App.val_u1c1_lb, App.val_u1c2_ub]
      · intro hv
        exfalso
        have hvv : (App.Score.mk 10 66 2).val = (App.Score.mk 0 66 2).val := hv
        rw [App.val_u1c3] at hvv
        linarith [App.val_u1c1_lb]
      · intro hv
        exfalso
        have hvv : (App.Score.mk 10 66 2).val = (App.Score.mk 0 66 1).val := hv
        rw [App.val_u1c4] at hvv
        linarith [App.val_u1c1_lb]
    · intro a' ha'
      fin_cases ha' <;> (intro hv; decide)
    · intro a' ha'
      fin_cases ha' <;> (intro hv; decide)
  · refine ⟨App.simsOf [0, 0, 5, 4, 3] App.contents,
      ["Comedy Special", "Drama Series", "Action Adventure"],
      by decide, App.sortDesc_sorted _ (by decide), ?_, by decide, by decide⟩
    rw [show App.sortDesc (App.simsOf [0, 0, 5, 4, 3] App.contents) =
        [(3, ⟨9, 50, 2⟩), (4, ⟨5, 50, 1⟩), (1, ⟨3, 50, 2⟩),
         (2, ⟨3, 50, 2⟩), (5, ⟨3, 50, 2⟩)] from by decide]
    refine List.Pairwise.cons ?_ (List.Pairwise.cons ?_ (List.Pairwise.cons ?_
      (List.Pairwise.cons ?_ (List.Pairwise.cons (by simp) List.Pairwise.nil))))
    · intro a' ha'
      fin_cases ha'
      · intro hv
        decide
      all_goals
        intro hv
        exfalso
        have hvv : (App.Score.mk 9 50 2).val = (App.Score.mk 3 50 2).val := hv
        rw [App.val_u2c3, App.val_u2c1] at hvv
        norm_num at hvv
    · intro a' ha'
      fin_cases ha' <;>
        (intro hv
         exfalso
         have hvv : (App.Score.mk 5 50 1).val = (App.Score.mk 3 50 2).val := hv
         rw [App.val_u2c1] at hvv
         linarith [App.val_u2c4_lb])
    · intro a' ha'
      fin_cases ha' <;> (intro hv; decide)
    · intro a' ha'
      fin_cases ha' <;> (intro hv; decide)

/-- C4 witness: userId 1 instantiation. -/
theorem C4_witness :
    ((1 : Int), ([5, 4, 0, 0, 5] : List Int)) ∈ App.users ∧
      ∃ (sims : List (Int × App.Score)) (ts : List String),
        App.mapExcept (App.scoreOf [5, 4, 0, 0, 5]) App.contents = .ok sims ∧
        (App.sortDesc sims).Pairwise (fun a b => (b.2).val ≤ (a.2).val) ∧
        (App.sortDesc sims).Pairwise (fun a b => (a.2).val = (b.2).val →
          App.catIdx App.contents a.1 < App.catIdx App.contents b.1) ∧
        App.mapExcept (App.titleOf App.contents) ((App.sortDesc sims).take 3) =
          .ok ts ∧
        App.recommend App.users App.contents (some 1) = .ok ⟨200, none, some ts⟩ :=
  ⟨by decide, C4_descending_stable 1 [5, 4, 0, 0, 5] (by decide)⟩
